import Mathlib

/-!
# Neona task-coordination core: a shallow embedding

This file embeds the core of the Neona control plane (Go sources under
`internal/store`, `internal/controlplane`, `internal/scheduler` and the
`localexec` connector) as pure Lean functions over an explicit database
state, and proves the specified contracts about them.

Modelling conventions:
* SQL tables become Lean lists of rows; a transaction that rolls back is a
  function that returns the original database unchanged on error.
* Wall-clock instants (`time.Now().UTC()`) become `Nat` parameters named
  `now`; `expires_at = now + ttl_seconds` in seconds.
* Fresh UUIDs become explicit `String` parameters.
* SHA-256 hashing of audit inputs is abstracted as an opaque `String`
  argument: none of the verified contracts depend on the hash value.
* Process spawning by the `localexec` connector is represented by the
  successful result value; returning an error means no process is spawned.
-/

namespace Neona

/-- Task status, mirroring `models.TaskStatus` ("pending", "claimed",
"running", "completed", "failed"). -/
inductive TaskStatus where
  | pending
  | claimed
  | running
  | completed
  | failed
deriving DecidableEq, Repr

/-- A row of the `tasks` table (`models.Task`). -/
structure Task where
  id : String
  title : String
  description : String
  status : TaskStatus
  claimedBy : Option String
  claimedAt : Option Nat
  createdAt : Nat
  updatedAt : Nat
deriving DecidableEq, Repr

/-- A row of the `leases` table (`models.Lease`). -/
structure Lease where
  id : String
  taskId : String
  holderId : String
  ttlSec : Nat
  expiresAt : Nat
  createdAt : Nat
deriving DecidableEq, Repr

/-- A row of the `locks` table (`models.Lock`). -/
structure Lock where
  id : String
  resourceId : String
  holderId : String
  lockType : String
  createdAt : Nat
  expiresAt : Nat
deriving DecidableEq, Repr

/-- A row of the `runs` table (`models.Run`). -/
structure Run where
  id : String
  taskId : String
  command : String
  args : List String
  exitCode : Option Int
  stdout : Option String
  stderr : Option String
  startedAt : Nat
  endedAt : Option Nat
deriving DecidableEq, Repr

/-- A row of the `pdr` audit table (`models.PDREntry`). -/
structure PDREntry where
  id : String
  action : String
  inputsHash : String
  outcome : String
  taskId : String
  details : String
  timestamp : Nat
deriving DecidableEq, Repr

/-- A row of the `memory_items` table (`models.MemoryItem`). -/
structure MemoryItem where
  id : String
  taskId : String
  content : String
  tags : String
  createdAt : Nat
deriving DecidableEq, Repr

/-- The whole SQLite database owned by `store.Store`. -/
structure DB where
  tasks : List Task
  leases : List Lease
  locks : List Lock
  runs : List Run
  pdrs : List PDREntry
  memories : List MemoryItem
deriving DecidableEq, Repr

/-- `Store.GetTask`: `SELECT ... FROM tasks WHERE id = ?`. -/
def getTask (db : DB) (id : String) : Option Task :=
  db.tasks.find? (fun t => t.id == id)

/-- A lease row is active at instant `now` iff `expires_at > now`. -/
def leaseActive (l : Lease) (now : Nat) : Bool :=
  now < l.expiresAt

/-- Whether some active lease references `taskId`
(`SELECT id FROM leases WHERE task_id = ? AND expires_at > ?`). -/
def hasActiveLease (db : DB) (taskId : String) (now : Nat) : Bool :=
  db.leases.any (fun l => l.taskId == taskId && leaseActive l now)

/-- `Store.UpdateTaskStatus`:
`UPDATE tasks SET status = ?, updated_at = ? WHERE id = ?`. -/
def updateTaskStatus (db : DB) (id : String) (status : TaskStatus) (now : Nat) : DB :=
  { db with tasks := db.tasks.map (fun t =>
      if t.id == id then { t with status := status, updatedAt := now } else t) }

/-- `Store.ClaimTask`: unconditional
`UPDATE tasks SET status='claimed', claimed_by=?, claimed_at=?, updated_at=? WHERE id = ?`
(note: no status precondition in the SQL). -/
def storeClaimTask (db : DB) (id holderId : String) (now : Nat) : DB :=
  { db with tasks := db.tasks.map (fun t =>
      if t.id == id then
        { t with status := .claimed, claimedBy := some holderId,
                 claimedAt := some now, updatedAt := now }
      else t) }

/-- `Store.ReleaseTask`:
`UPDATE tasks SET status='pending', claimed_by=NULL, claimed_at=NULL, updated_at=? WHERE id=?`. -/
def storeReleaseTask (db : DB) (id : String) (now : Nat) : DB :=
  { db with tasks := db.tasks.map (fun t =>
      if t.id == id then
        { t with status := .pending, claimedBy := none,
                 claimedAt := none, updatedAt := now }
      else t) }

/-- `Store.CreateLease`: inserts a lease row with
`expires_at = now + ttl_seconds`. -/
def storeCreateLease (db : DB) (taskId holderId : String) (ttlSec now : Nat)
    (leaseId : String) : Lease × DB :=
  let lease : Lease :=
    { id := leaseId, taskId := taskId, holderId := holderId,
      ttlSec := ttlSec, expiresAt := now + ttlSec, createdAt := now }
  (lease, { db with leases := db.leases ++ [lease] })

/-- `Store.DeleteLease`: `DELETE FROM leases WHERE id = ?`. -/
def storeDeleteLease (db : DB) (leaseId : String) : DB :=
  { db with leases := db.leases.filter (fun l => !(l.id == leaseId)) }

/-- `Store.RenewLease`: `UPDATE leases SET expires_at = ? WHERE id = ?`. -/
def storeRenewLease (db : DB) (leaseId : String) (ttlSec now : Nat) : DB :=
  { db with leases := db.leases.map (fun l =>
      if l.id == leaseId then { l with expiresAt := now + ttlSec } else l) }

/-- `Store.GetActiveLease`: the active lease for the task with the latest
`created_at` (`ORDER BY created_at DESC LIMIT 1`). -/
def getActiveLease (db : DB) (taskId : String) (now : Nat) : Option Lease :=
  (db.leases.filter (fun l => l.taskId == taskId && leaseActive l now)).foldl
    (fun acc l =>
      match acc with
      | none => some l
      | some b => if b.createdAt < l.createdAt then some l else acc)
    none

/-- Errors of the transactional claim path. -/
inductive ClaimErr where
  | taskNotClaimable
  | taskAlreadyLeased
deriving DecidableEq, Repr

/-- `store.ClaimResult`. -/
structure ClaimResult where
  task : Task
  lease : Lease
deriving DecidableEq, Repr

/-- The row update applied by the claim compare-and-set
(`SET status='claimed', claimed_by=?, claimed_at=?, updated_at=?`). -/
def markClaimed (holderId : String) (now : Nat) (t : Task) : Task :=
  { t with status := .claimed, claimedBy := some holderId,
           claimedAt := some now, updatedAt := now }

/-- `Store.ClaimTaskWithLeaseTx`: inside one transaction,
(1) look the task up (`ErrTaskNotClaimable` when absent),
(2) require `status = pending` (`ErrTaskNotClaimable` otherwise),
(3) require no active lease (`ErrTaskAlreadyLeased` otherwise),
(4) conditionally update the row to `claimed` with
`WHERE id = ? AND status = 'pending'`, failing with `ErrTaskNotClaimable`
when zero rows are affected,
(5) insert the lease with `expires_at = now + ttl`.
An error returns the caller's database unchanged (rollback). -/
def claimTaskWithLeaseTx (db : DB) (taskId holderId : String) (ttlSec now : Nat)
    (leaseId : String) : Except ClaimErr ClaimResult × DB :=
  match db.tasks.find? (fun t => t.id == taskId) with
  | none => (.error .taskNotClaimable, db)
  | some task =>
    if task.status ≠ .pending then
      (.error .taskNotClaimable, db)
    else if hasActiveLease db taskId now then
      (.error .taskAlreadyLeased, db)
    else
      if (db.tasks.filter (fun t => t.id == taskId && t.status == .pending)).length == 0 then
        (.error .taskNotClaimable, db)
      else
        let tasks1 := db.tasks.map (fun t =>
          if t.id == taskId && t.status == .pending then markClaimed holderId now t else t)
        let lease : Lease :=
          { id := leaseId, taskId := taskId, holderId := holderId,
            ttlSec := ttlSec, expiresAt := now + ttlSec, createdAt := now }
        (.ok { task := markClaimed holderId now task, lease := lease },
         { db with tasks := tasks1, leases := db.leases ++ [lease] })

/-- `Store.WritePDR`: append a Process Decision Record row. -/
def writePDR (db : DB) (pdrId action inputsHash outcome taskId details : String)
    (now : Nat) : PDREntry × DB :=
  let e : PDREntry :=
    { id := pdrId, action := action, inputsHash := inputsHash,
      outcome := outcome, taskId := taskId, details := details, timestamp := now }
  (e, { db with pdrs := db.pdrs ++ [e] })

/-- `Store.CreateRun`: insert a run row with null exit/outputs. -/
def storeCreateRun (db : DB) (runId taskId command : String) (args : List String)
    (now : Nat) : Run × DB :=
  let run : Run :=
    { id := runId, taskId := taskId, command := command, args := args,
      exitCode := none, stdout := none, stderr := none,
      startedAt := now, endedAt := none }
  (run, { db with runs := db.runs ++ [run] })

/-- `Store.UpdateRun`: set exit code, outputs and `ended_at` on a run row. -/
def storeUpdateRun (db : DB) (id : String) (exitCode : Int) (stdout stderr : String)
    (now : Nat) : DB :=
  { db with runs := db.runs.map (fun r =>
      if r.id == id then
        { r with exitCode := some exitCode, stdout := some stdout,
                 stderr := some stderr, endedAt := some now }
      else r) }

/-- `Store.AddMemory`: insert a memory item row. -/
def storeAddMemory (db : DB) (memId taskId content tags : String) (now : Nat) :
    MemoryItem × DB :=
  let item : MemoryItem :=
    { id := memId, taskId := taskId, content := content, tags := tags,
      createdAt := now }
  (item, { db with memories := db.memories ++ [item] })

/-- Error of the lock-acquisition path (`store.ErrResourceLocked`). -/
inductive LockErr where
  | resourceLocked
deriving DecidableEq, Repr

/-- `Store.AcquireLock`: inside one transaction,
(1) `DELETE FROM locks WHERE resource_id = ? AND expires_at <= ?`,
(2) return `ErrResourceLocked` when a row with `expires_at > now` remains,
(3) insert the new lock with `expires_at = now + ttl`; a `resource_id`
uniqueness violation at insert time is translated to `ErrResourceLocked`.
An error returns the caller's database unchanged (rollback). -/
def acquireLock (db : DB) (resourceId holderId lockType : String) (ttlSec now : Nat)
    (lockId : String) : Except LockErr Lock × DB :=
  if (db.locks.filter (fun l =>
      !(l.resourceId == resourceId && l.expiresAt ≤ now))).any
        (fun l => l.resourceId == resourceId && now < l.expiresAt) then
    (.error .resourceLocked, db)
  else if (db.locks.filter (fun l =>
      !(l.resourceId == resourceId && l.expiresAt ≤ now))).any
        (fun l => l.resourceId == resourceId) then
    (.error .resourceLocked, db)
  else
    let lock : Lock :=
      { id := lockId, resourceId := resourceId, holderId := holderId,
        lockType := lockType, createdAt := now, expiresAt := now + ttlSec }
    (.ok lock, { db with locks := db.locks.filter (fun l =>
        !(l.resourceId == resourceId && l.expiresAt ≤ now)) ++ [lock] })

/-- `Store.GetLock`: the non-expired lock row for a resource, if any. -/
def getLock (db : DB) (resourceId : String) (now : Nat) : Option Lock :=
  db.locks.find? (fun l => l.resourceId == resourceId && now < l.expiresAt)

/-- `Store.ReleaseLock`: `DELETE FROM locks WHERE id = ?`. -/
def storeReleaseLock (db : DB) (lockId : String) : DB :=
  { db with locks := db.locks.filter (fun l => !(l.id == lockId)) }

/-! ## Control-plane service (`internal/controlplane/service.go`) -/

/-- Control-plane sentinel errors (`internal/controlplane/errors.go`). -/
inductive CPErr where
  | alreadyClaimed
  | noLease
  | notOwner
deriving DecidableEq, Repr

/-- `Service.ClaimTask`: check for an existing active lease
(`ErrAlreadyClaimed`), then `Store.ClaimTask` (unconditional update), then
`Store.CreateLease`, then one audit record with outcome `success`. -/
def serviceClaimTask (db : DB) (taskId holderId : String) (ttlSec now : Nat)
    (leaseId pdrId inputsHash : String) : Except CPErr Lease × DB :=
  match getActiveLease db taskId now with
  | some _ => (.error .alreadyClaimed, db)
  | none =>
    let db1 := storeClaimTask db taskId holderId now
    let (lease, db2) := storeCreateLease db1 taskId holderId ttlSec now leaseId
    let (_, db3) := writePDR db2 pdrId "task.claim" inputsHash "success" taskId "" now
    (.ok lease, db3)

/-- `Service.ReleaseTask`: verify an active lease exists (`ErrNoLease`) and
is held by the caller (`ErrNotOwner`); then delete the lease, then reset the
task to pending, then one audit record. -/
def serviceReleaseTask (db : DB) (taskId holderId : String) (now : Nat)
    (pdrId inputsHash : String) : Except CPErr Unit × DB :=
  match getActiveLease db taskId now with
  | none => (.error .noLease, db)
  | some lease =>
    if lease.holderId ≠ holderId then
      (.error .notOwner, db)
    else
      let db1 := storeDeleteLease db lease.id
      let db2 := storeReleaseTask db1 taskId now
      let (_, db3) := writePDR db2 pdrId "task.release" inputsHash "success" taskId "" now
      (.ok (), db3)

/-- The database states an observer can see while `Service.ReleaseTask`
performs its two writes on the success path, in write order:
initial, after `DeleteLease`, after `ReleaseTask`. -/
def serviceReleaseTaskTrace (db : DB) (taskId leaseId : String) (now : Nat) : List DB :=
  let db1 := storeDeleteLease db leaseId
  let db2 := storeReleaseTask db1 taskId now
  [db, db1, db2]

/-- Result of `connectors.Connector.Execute` (`connectors.ExecResult`). -/
structure ExecResult where
  command : String
  args : List String
  exitCode : Int
  stdout : String
  stderr : String
deriving DecidableEq, Repr

/-- `Service.RunTask`: verify the active lease is held by the caller
(`ErrNotOwner`), set the task to running, create a run row, execute via the
connector (abstracted as the `execResult` argument: `Except` error means the
process failed to execute), classify the outcome, update the run row, set
the task to completed or failed, write one audit record and one memory
item. -/
def serviceRunTask (db : DB) (taskId holderId command : String) (args : List String)
    (execResult : Except String ExecResult) (now : Nat)
    (runId pdrId memId inputsHash : String) : Except CPErr Run × DB :=
  match getActiveLease db taskId now with
  | none => (.error .notOwner, db)
  | some lease =>
    if lease.holderId ≠ holderId then
      (.error .notOwner, db)
    else
      let db1 := updateTaskStatus db taskId .running now
      let (run, db2) := storeCreateRun db1 runId taskId command args now
      let (outcome, exitCode, stdout, stderr) :=
        match execResult with
        | .error msg => ("error", (-1 : Int), "", msg)
        | .ok r =>
          if r.exitCode ≠ 0 then ("failed", r.exitCode, r.stdout, r.stderr)
          else ("success", r.exitCode, r.stdout, r.stderr)
      let db3 := storeUpdateRun db2 run.id exitCode stdout stderr now
      let status : TaskStatus := if outcome == "success" then .completed else .failed
      let db4 := updateTaskStatus db3 taskId status now
      let (_, db5) := writePDR db4 pdrId "task.run" inputsHash outcome taskId "" now
      let (_, db6) := storeAddMemory db5 memId taskId
        ("Run: " ++ command ++ "\nOutput: " ++ stdout) "run,log" now
      (.ok { run with exitCode := some exitCode, stdout := some stdout,
                      stderr := some stderr }, db6)

/-- `Service.AcquireLock`: delegate to `Store.AcquireLock`; on success write
one audit record with outcome `success`, on error return it unchanged. -/
def serviceAcquireLock (db : DB) (resourceId holderId lockType : String)
    (ttlSec now : Nat) (lockId pdrId inputsHash : String) :
    Except LockErr Lock × DB :=
  match acquireLock db resourceId holderId lockType ttlSec now lockId with
  | (.error e, db1) => (.error e, db1)
  | (.ok lock, db1) =>
    let (_, db2) := writePDR db1 pdrId "lock.acquire" inputsHash "success" "" "" now
    (.ok lock, db2)

/-! ## Scheduler worker pool (`internal/scheduler/config.go`) -/

/-- `scheduler.Config`: a global cap and per-connector caps. -/
structure SchedConfig where
  globalMax : Int
  byConnector : List (String × Int)
deriving DecidableEq, Repr

/-- `scheduler.DefaultConfig()`. -/
def defaultSchedConfig : SchedConfig :=
  { globalMax := 10, byConnector := [("localexec", 5)] }

/-- `Config.GetConnectorLimit`: configured limit, defaulting to 1. -/
def SchedConfig.getConnectorLimit (c : SchedConfig) (name : String) : Int :=
  match c.byConnector.find? (fun p => p.1 == name) with
  | some p => p.2
  | none => 1

/-- `scheduler.WorkerInfo`: per-worker bookkeeping record. -/
structure WorkerInfo where
  workerId : String
  taskId : String
  taskTitle : String
  leaseId : String
  leaseExpires : Nat
  startedAt : Nat
  connectorName : String
deriving DecidableEq, Repr

/-- The scheduler's mutex-protected bookkeeping:
`activeWorkers`, `connectorCounts` (a Go map: absent keys read as 0), and
the `workers` map. -/
structure SchedState where
  activeWorkers : Int
  connectorCounts : String → Int
  workers : List (String × WorkerInfo)

/-- The scheduler's state right after `scheduler.New`: zero workers. -/
def SchedState.init : SchedState :=
  { activeWorkers := 0, connectorCounts := fun _ => 0, workers := [] }

/-- The state written under the lock on the success path of
`pollAndDispatch`: both counters incremented, `WorkerInfo` recorded. -/
def dispatchState (s : SchedState) (cname wid : String) (w : WorkerInfo) : SchedState :=
  { activeWorkers := s.activeWorkers + 1,
    connectorCounts :=
      Function.update s.connectorCounts cname (s.connectorCounts cname + 1),
    workers := s.workers ++ [(wid, w)] }

/-- The state written under the lock by `runWorker`'s deferred epilogue:
both counters decremented, the `WorkerInfo` entry deleted. -/
def exitState (s : SchedState) (cname wid : String) : SchedState :=
  { activeWorkers := s.activeWorkers - 1,
    connectorCounts :=
      Function.update s.connectorCounts cname (s.connectorCounts cname - 1),
    workers := s.workers.filter (fun p => !(p.1 == wid)) }

/-- One transition of the scheduler bookkeeping state, for a scheduler with
configuration `cfg` whose single connector is named `cname`.
`dispatch` is the success path of `pollAndDispatch`: it runs only when the
capacity check passed (the check and the increment are separated by a claim
call in the source, but the single poll loop is the only producer and the
only interleaved events are worker exits, which lower the counts, so a
guard that held at check time still holds at increment time). `exit` is
the deferred epilogue of `runWorker`. -/
inductive SchedStep (cfg : SchedConfig) (cname : String) :
    SchedState → SchedState → Prop where
  | dispatch (s : SchedState) (wid : String) (w : WorkerInfo)
      (hg : s.activeWorkers < cfg.globalMax)
      (hc : s.connectorCounts cname < cfg.getConnectorLimit cname)
      (hfresh : s.workers.all (fun p => !(p.1 == wid)))
      (hwname : w.connectorName = cname) (hwid : w.workerId = wid) :
      SchedStep cfg cname s (dispatchState s cname wid w)
  | exit (s : SchedState) (wid : String)
      (hmem : s.workers.any (fun p => p.1 == wid)) :
      SchedStep cfg cname s (exitState s cname wid)

/-- Scheduler bookkeeping states reachable from the freshly created
scheduler by dispatches and worker exits. -/
inductive SchedReachable (cfg : SchedConfig) (cname : String) : SchedState → Prop where
  | init : SchedReachable cfg cname SchedState.init
  | step {s s' : SchedState} : SchedReachable cfg cname s →
      SchedStep cfg cname s s' → SchedReachable cfg cname s'

/-- The database states an observer can see while `Scheduler.runWorker`
runs its deferred release path (the `released = true` case), in write
order: initial, after `ReleaseTask`, after `DeleteLease`. -/
def runWorkerReleaseTrace (db : DB) (taskId leaseId : String) (now : Nat) : List DB :=
  let db1 := storeReleaseTask db taskId now
  let db2 := storeDeleteLease db1 leaseId
  [db, db1, db2]

/-! ## Local-exec connector (`internal/connectors` + `localexec`) -/

/-- `localexec.allowedCommands`: the strict allowlist. -/
def allowedCommands : List (String × List String) :=
  [("go", ["test"]), ("git", ["diff", "status"])]

/-- `LocalExec.IsAllowed`: the command must be an allowlist key and the
first argument must be one of its allowed subcommands; an empty argument
list is rejected. -/
def isAllowed (cmd : String) (args : List String) : Bool :=
  match allowedCommands.find? (fun p => p.1 == cmd) with
  | none => false
  | some p =>
    match args with
    | [] => false
    | subcmd :: _ => p.2.any (fun a => a == subcmd)

/-- A spawned process request; producing one models the
`exec.CommandContext` call in `LocalExec.Execute`. -/
structure Spawn where
  command : String
  args : List String
deriving DecidableEq, Repr

/-- Error of the connector path: the allowlist rejection
(`"command not allowed"`). -/
inductive ExecErr where
  | errNotAllowed
deriving DecidableEq, Repr

/-- `LocalExec.Execute` up to the spawn point: it first consults
`IsAllowed` and returns the rejection error without constructing a process;
otherwise the command is handed to the operating system (the returned
`Spawn` value stands for that side effect; output capture is outside the
model). -/
def localExecExecute (cmd : String) (args : List String) : Except ExecErr Spawn :=
  if isAllowed cmd args then
    .ok { command := cmd, args := args }
  else
    .error .errNotAllowed

/-- One claim attempt on a fixed task: the varying inputs of a
`ClaimTaskWithLeaseTx` call. -/
structure ClaimAttempt where
  holderId : String
  ttlSec : Nat
  now : Nat
  leaseId : String
deriving DecidableEq, Repr

/-- Run a sequence of `ClaimTaskWithLeaseTx` calls against one task,
threading the database, and collect each call's result. -/
def runClaimAttempts (db : DB) (taskId : String) :
    List ClaimAttempt → DB × List (Except ClaimErr ClaimResult)
  | [] => (db, [])
  | a :: rest =>
    let (r, db1) := claimTaskWithLeaseTx db taskId a.holderId a.ttlSec a.now a.leaseId
    let (db2, rs) := runClaimAttempts db1 taskId rest
    (db2, r :: rs)

/-- The observer-visible bad state of the lease lifecycle: the task row says
`claimed` while no lease row references the task. -/
def claimedNoLease (db : DB) (taskId : String) : Prop :=
  (∃ t, getTask db taskId = some t ∧ t.status = .claimed)
  ∧ ∀ l ∈ db.leases, l.taskId ≠ taskId

instance (db : DB) (taskId : String) : Decidable (claimedNoLease db taskId) := by
  unfold claimedNoLease
  have : Decidable (∃ t, getTask db taskId = some t ∧ t.status = .claimed) := by
    cases h : getTask db taskId with
    | none => exact .isFalse (by rintro ⟨t', ht', _⟩; cases ht')
    | some t =>
      refine decidable_of_iff (t.status = TaskStatus.claimed) ?_
      constructor
      · intro hs; exact ⟨t, rfl, hs⟩
      · rintro ⟨t', ht', hs⟩
        injection ht' with h0
        subst h0
        exact hs
  exact instDecidableAnd

/-! ## Concrete fixtures used by witnesses and counterexamples -/

/-- A task row fixture with the given id and status. -/
def sampleTask (id : String) (status : TaskStatus) : Task :=
  { id := id, title := "T", description := "", status := status,
    claimedBy := none, claimedAt := none, createdAt := 0, updatedAt := 0 }

/-- A claimed task row fixture with the given holder. -/
def sampleClaimedTask (id holder : String) : Task :=
  { id := id, title := "T", description := "", status := .claimed,
    claimedBy := some holder, claimedAt := some 10, createdAt := 0, updatedAt := 10 }

/-- A lease row fixture. -/
def sampleLease (id taskId holder : String) (expiresAt : Nat) : Lease :=
  { id := id, taskId := taskId, holderId := holder, ttlSec := 300,
    expiresAt := expiresAt, createdAt := 10 }

/-- A lock row fixture. -/
def sampleLock (id resourceId holder : String) (expiresAt : Nat) : Lock :=
  { id := id, resourceId := resourceId, holderId := holder, lockType := "task",
    createdAt := 0, expiresAt := expiresAt }

/-- A database fixture with the given task, lease and lock tables. -/
def sampleDB (tasks : List Task) (leases : List Lease) (locks : List Lock) : DB :=
  { tasks := tasks, leases := leases, locks := locks,
    runs := [], pdrs := [], memories := [] }

/-! ## Helper lemmas -/

/-- `find?` by id commutes with mapping an id-preserving row update. -/
theorem find_map_id (l : List Task) (f : Task → Task)
    (hf : ∀ t, (f t).id = t.id) (tid : String) :
    (l.map f).find? (fun t => t.id == tid) = (l.find? (fun t => t.id == tid)).map f := by
  induction l with
  | nil => rfl
  | cons x xs ih =>
    simp only [List.map_cons, List.find?, hf x]
    cases hx : (x.id == tid) with
    | false => simpa using ih
    | true => rfl

/-- On any error, `ClaimTaskWithLeaseTx` returns the caller's database
unchanged (the transaction rolls back). -/
theorem claimTx_error_rollback (db : DB) (taskId holderId : String)
    (ttlSec now : Nat) (leaseId : String) (e : ClaimErr) (db1 : DB) :
    claimTaskWithLeaseTx db taskId holderId ttlSec now leaseId = (.error e, db1) →
    db1 = db := by
  unfold claimTaskWithLeaseTx
  split
  · intro hEq; exact (congrArg Prod.snd hEq).symm
  · split
    · intro hEq; exact (congrArg Prod.snd hEq).symm
    · split
      · intro hEq; exact (congrArg Prod.snd hEq).symm
      · split
        · intro hEq; exact (congrArg Prod.snd hEq).symm
        · intro hEq; exact absurd (congrArg Prod.fst hEq) (by simp)

/-- Missing task: the claim fails with `ErrTaskNotClaimable`. -/
theorem claimTx_none (db : DB) (taskId holderId : String)
    (ttlSec now : Nat) (leaseId : String)
    (hf : db.tasks.find? (fun x => x.id == taskId) = none) :
    claimTaskWithLeaseTx db taskId holderId ttlSec now leaseId =
      (.error .taskNotClaimable, db) := by
  unfold claimTaskWithLeaseTx
  rw [hf]

/-- Non-pending task: the claim fails with `ErrTaskNotClaimable`. -/
theorem claimTx_not_pending (db : DB) (taskId holderId : String)
    (ttlSec now : Nat) (leaseId : String) (t : Task)
    (hf : db.tasks.find? (fun x => x.id == taskId) = some t)
    (hs : t.status ≠ .pending) :
    claimTaskWithLeaseTx db taskId holderId ttlSec now leaseId =
      (.error .taskNotClaimable, db) := by
  unfold claimTaskWithLeaseTx
  rw [hf]
  dsimp only
  rw [if_pos hs]

/-- Pending task with an active lease: the claim fails with
`ErrTaskAlreadyLeased`. -/
theorem claimTx_leased (db : DB) (taskId holderId : String)
    (ttlSec now : Nat) (leaseId : String) (t : Task)
    (hf : db.tasks.find? (fun x => x.id == taskId) = some t)
    (hs : t.status = .pending)
    (hl : hasActiveLease db taskId now = true) :
    claimTaskWithLeaseTx db taskId holderId ttlSec now leaseId =
      (.error .taskAlreadyLeased, db) := by
  unfold claimTaskWithLeaseTx
  rw [hf]
  dsimp only
  rw [if_neg (by simp [hs])]
  rw [if_pos hl]

/-- Pending task with no active lease: the claim succeeds, returning the
claimed task, the fresh lease, and the database with both writes applied. -/
theorem claimTx_success_eq (db : DB) (taskId holderId : String)
    (ttlSec now : Nat) (leaseId : String) (t : Task)
    (hf : db.tasks.find? (fun x => x.id == taskId) = some t)
    (hs : t.status = .pending)
    (hl : hasActiveLease db taskId now = false) :
    claimTaskWithLeaseTx db taskId holderId ttlSec now leaseId =
      (.ok { task := markClaimed holderId now t,
             lease := { id := leaseId, taskId := taskId, holderId := holderId,
                        ttlSec := ttlSec, expiresAt := now + ttlSec, createdAt := now } },
       { db with
           tasks := db.tasks.map (fun x =>
             if x.id == taskId && x.status == .pending then markClaimed holderId now x else x),
           leases := db.leases ++
             [{ id := leaseId, taskId := taskId, holderId := holderId,
                ttlSec := ttlSec, expiresAt := now + ttlSec, createdAt := now }] }) := by
  have hmem : t ∈ db.tasks := List.mem_of_find?_eq_some hf
  have hpred : (t.id == taskId) = true := by simpa using List.find?_some hf
  have hmemf : t ∈ db.tasks.filter (fun x => x.id == taskId && x.status == .pending) :=
    List.mem_filter.mpr ⟨hmem, by simp [hpred, hs]⟩
  have hlen :
      ((db.tasks.filter (fun x => x.id == taskId && x.status == .pending)).length == 0) = false := by
    cases hfl : db.tasks.filter (fun x => x.id == taskId && x.status == .pending) with
    | nil => rw [hfl] at hmemf; cases hmemf
    | cons a l => simp [hfl]
  unfold claimTaskWithLeaseTx
  rw [hf]
  dsimp only
  rw [if_neg (by simp [hs])]
  rw [if_neg (by simp [hl])]
  rw [if_neg (by simp [hlen])]

/-- C1 (confirmed): `claim_task_with_lease` in one transaction verifies the
task exists with status pending (else ErrTaskNotClaimable), verifies no
active lease exists (else ErrTaskAlreadyLeased), conditionally updates the
row to claimed (zero affected rows fail with ErrTaskNotClaimable), inserts
a lease with `expires_at = now + ttl_seconds`; on success both writes are
visible, and on any error the database is unchanged. -/
theorem claimTaskWithLeaseTx_spec (db : DB) (taskId holderId : String)
    (ttlSec now : Nat) (leaseId : String) :
    (∀ e db1, claimTaskWithLeaseTx db taskId holderId ttlSec now leaseId = (.error e, db1) → db1 = db)
    ∧ (getTask db taskId = none →
        claimTaskWithLeaseTx db taskId holderId ttlSec now leaseId = (.error .taskNotClaimable, db))
    ∧ (∀ t, getTask db taskId = some t → t.status ≠ .pending →
        claimTaskWithLeaseTx db taskId holderId ttlSec now leaseId = (.error .taskNotClaimable, db))
    ∧ (∀ t, getTask db taskId = some t → t.status = .pending →
        hasActiveLease db taskId now = true →
        claimTaskWithLeaseTx db taskId holderId ttlSec now leaseId = (.error .taskAlreadyLeased, db))
    ∧ ((db.tasks.filter (fun x => x.id == taskId && x.status == .pending)).length = 0 →
        (claimTaskWithLeaseTx db taskId holderId ttlSec now leaseId).1 = .error .taskNotClaimable)
    ∧ (∀ t, getTask db taskId = some t → t.status = .pending →
        hasActiveLease db taskId now = false →
        ∃ res db1,
          claimTaskWithLeaseTx db taskId holderId ttlSec now leaseId = (.ok res, db1)
          ∧ res.lease.taskId = taskId ∧ res.lease.holderId = holderId
          ∧ res.lease.expiresAt = now + ttlSec
          ∧ db1.leases = db.leases ++ [res.lease]
          ∧ getTask db1 taskId = some (markClaimed holderId now t)) := by
  refine ⟨claimTx_error_rollback db taskId holderId ttlSec now leaseId, ?_, ?_, ?_, ?_, ?_⟩
  · intro hf
    exact claimTx_none db taskId holderId ttlSec now leaseId hf
  · intro t hf hs
    exact claimTx_not_pending db taskId holderId ttlSec now leaseId t hf hs
  · intro t hf hs hl
    exact claimTx_leased db taskId holderId ttlSec now leaseId t hf hs hl
  · intro hflt
    rw [List.length_eq_zero] at hflt
    cases hf : db.tasks.find? (fun x => x.id == taskId) with
    | none =>
      rw [claimTx_none db taskId holderId ttlSec now leaseId hf]
    | some t =>
      by_cases hs : t.status = .pending
      · exfalso
        have hmem : t ∈ db.tasks := List.mem_of_find?_eq_some hf
        have hpred : (t.id == taskId) = true := by simpa using List.find?_some hf
        have : t ∈ db.tasks.filter (fun x => x.id == taskId && x.status == .pending) :=
          List.mem_filter.mpr ⟨hmem, by simp [hpred, hs]⟩
        rw [hflt] at this
        cases this
      · rw [claimTx_not_pending db taskId holderId ttlSec now leaseId t hf hs]
  · intro t hf hs hl
    refine ⟨_, _, claimTx_success_eq db taskId holderId ttlSec now leaseId t hf hs hl,
      rfl, rfl, rfl, rfl, ?_⟩
    show getTask { db with
      tasks := db.tasks.map (fun x =>
        if x.id == taskId && x.status == .pending then markClaimed holderId now x else x),
      leases := db.leases ++
        [{ id := leaseId, taskId := taskId, holderId := holderId,
           ttlSec := ttlSec, expiresAt := now + ttlSec, createdAt := now }] } taskId =
      some (markClaimed holderId now t)
    have hf1 : db.tasks.find? (fun x => x.id == taskId) = some t := hf
    unfold getTask
    rw [find_map_id _ _
      (fun x => by cases h : (x.id == taskId && x.status == TaskStatus.pending) <;>
        simp [h, markClaimed]) taskId]
    rw [hf1]
    have hid : t.id = taskId := by simpa using List.find?_some hf1
    simp [hid, hs]

/-- Witness for C1: on a one-task database the hypotheses of the pending,
unleased branch hold and the claim succeeds. -/
theorem claimTaskWithLeaseTx_spec_witness :
    (getTask (sampleDB [sampleTask "t1" .pending] [] []) "t1" =
       some (sampleTask "t1" .pending))
    ∧ ((sampleTask "t1" .pending).status = .pending)
    ∧ (hasActiveLease (sampleDB [sampleTask "t1" .pending] [] []) "t1" 100 = false)
    ∧ (∃ res db1,
        claimTaskWithLeaseTx (sampleDB [sampleTask "t1" .pending] [] [])
          "t1" "h1" 300 100 "l1" = (.ok res, db1)
        ∧ res.lease.taskId = "t1" ∧ res.lease.holderId = "h1"
        ∧ res.lease.expiresAt = 100 + 300
        ∧ db1.leases = [] ++ [res.lease]
        ∧ getTask db1 "t1" = some (markClaimed "h1" 100 (sampleTask "t1" .pending))) := by
  refine ⟨rfl, rfl, rfl, ?_⟩
  exact (claimTaskWithLeaseTx_spec (sampleDB [sampleTask "t1" .pending] [] [])
    "t1" "h1" 300 100 "l1").2.2.2.2.2 (sampleTask "t1" .pending) rfl rfl rfl

/-- The compare-and-set task-table update maps the found row to its claimed
version. -/
theorem find_claimMap (tasks : List Task) (taskId holderId : String) (now : Nat)
    (t : Task) (hf : tasks.find? (fun x => x.id == taskId) = some t)
    (hs : t.status = .pending) :
    (tasks.map (fun x =>
        if x.id == taskId && x.status == .pending then markClaimed holderId now x
        else x)).find? (fun x => x.id == taskId) = some (markClaimed holderId now t) := by
  rw [find_map_id _ _
    (fun x => by cases h : (x.id == taskId && x.status == TaskStatus.pending) <;>
      simp [h, markClaimed]) taskId]
  rw [hf]
  have hid : t.id = taskId := by simpa using List.find?_some hf
  simp [hid, hs]

/-- Inversion of a successful `ClaimTaskWithLeaseTx`: the task was pending
with no active lease, and the returned database carries the claimed row. -/
theorem claimTx_ok_inv (db : DB) (taskId holderId : String)
    (ttlSec now : Nat) (leaseId : String) (res : ClaimResult) (db1 : DB)
    (h : claimTaskWithLeaseTx db taskId holderId ttlSec now leaseId = (.ok res, db1)) :
    ∃ t, db.tasks.find? (fun x => x.id == taskId) = some t ∧ t.status = .pending
      ∧ hasActiveLease db taskId now = false
      ∧ getTask db1 taskId = some (markClaimed holderId now t) := by
  have hcases : ∃ t, db.tasks.find? (fun x => x.id == taskId) = some t
      ∧ t.status = .pending ∧ hasActiveLease db taskId now = false := by
    revert h
    unfold claimTaskWithLeaseTx
    split
    · intro h; exact absurd (congrArg Prod.fst h) (by simp)
    · next t hfind =>
      split
      · intro h; exact absurd (congrArg Prod.fst h) (by simp)
      · next hnp =>
        split
        · intro h; exact absurd (congrArg Prod.fst h) (by simp)
        · next hal =>
          split
          · intro h; exact absurd (congrArg Prod.fst h) (by simp)
          · intro h
            refine ⟨t, hfind, by simpa using hnp, by simpa using hal⟩
  obtain ⟨t, hf, hs, hl⟩ := hcases
  refine ⟨t, hf, hs, hl, ?_⟩
  have heq := claimTx_success_eq db taskId holderId ttlSec now leaseId t hf hs hl
  rw [heq] at h
  have hdb : db1 = { db with
      tasks := db.tasks.map (fun x =>
        if x.id == taskId && x.status == .pending then markClaimed holderId now x else x),
      leases := db.leases ++
        [{ id := leaseId, taskId := taskId, holderId := holderId,
           ttlSec := ttlSec, expiresAt := now + ttlSec, createdAt := now }] } :=
    (congrArg Prod.snd h).symm
  rw [hdb]
  show (db.tasks.map (fun x =>
      if x.id == taskId && x.status == .pending then markClaimed holderId now x
      else x)).find? (fun x => x.id == taskId) = some (markClaimed holderId now t)
  exact find_claimMap db.tasks taskId holderId now t hf hs

/-- Against a task whose row is not pending, every claim attempt fails with
`ErrTaskNotClaimable` and leaves the database untouched. -/
theorem runAttempts_all_fail (db1 : DB) (taskId : String) (tc : Task)
    (hget : getTask db1 taskId = some tc) (hs : tc.status ≠ .pending) :
    ∀ attempts : List ClaimAttempt,
      (runClaimAttempts db1 taskId attempts).1 = db1
      ∧ ∀ r ∈ (runClaimAttempts db1 taskId attempts).2,
          r = .error .taskNotClaimable := by
  intro attempts
  induction attempts with
  | nil => exact ⟨rfl, by intro r hr; cases hr⟩
  | cons a rest ih =>
    have hstep := claimTx_not_pending db1 taskId a.holderId a.ttlSec a.now a.leaseId tc hget hs
    unfold runClaimAttempts
    rw [hstep]
    refine ⟨ih.1, ?_⟩
    intro r hr
    rcases List.mem_cons.mp hr with h1 | h2
    · exact h1
    · exact ih.2 r h2

/-- C2 (confirmed): once `claim_task_with_lease` has succeeded for some
holder and the task has not been released back to pending, every further
claim attempt on that task, by any holder at any time, fails (with
ErrTaskNotClaimable) and changes nothing, so no second holder ever
observes a successful claim of the same task. -/
theorem claim_at_most_one_active_holder (db : DB) (taskId holderId : String)
    (ttlSec now : Nat) (leaseId : String) (res : ClaimResult) (db1 : DB)
    (hok : claimTaskWithLeaseTx db taskId holderId ttlSec now leaseId = (.ok res, db1)) :
    ∀ attempts : List ClaimAttempt,
      (runClaimAttempts db1 taskId attempts).1 = db1
      ∧ ∀ r ∈ (runClaimAttempts db1 taskId attempts).2,
          r = .error .taskNotClaimable := by
  obtain ⟨t, _, _, _, hget⟩ :=
    claimTx_ok_inv db taskId holderId ttlSec now leaseId res db1 hok
  exact runAttempts_all_fail db1 taskId (markClaimed holderId now t) hget (by simp [markClaimed])

/-- Witness for C2: a concrete successful claim after which two further
attempts by other holders both fail. -/
theorem claim_at_most_one_active_holder_witness :
    (∃ res db1,
      claimTaskWithLeaseTx (sampleDB [sampleTask "t1" .pending] [] [])
        "t1" "h1" 300 100 "l1" = (.ok res, db1)
      ∧ (runClaimAttempts db1 "t1"
          [{ holderId := "h2", ttlSec := 60, now := 150, leaseId := "l2" },
           { holderId := "h3", ttlSec := 60, now := 9999, leaseId := "l3" }]).1 = db1
      ∧ ∀ r ∈ (runClaimAttempts db1 "t1"
          [{ holderId := "h2", ttlSec := 60, now := 150, leaseId := "l2" },
           { holderId := "h3", ttlSec := 60, now := 9999, leaseId := "l3" }]).2,
          r = .error .taskNotClaimable) := by
  refine ⟨_, _, rfl, ?_⟩
  have h := claim_at_most_one_active_holder (sampleDB [sampleTask "t1" .pending] [] [])
    "t1" "h1" 300 100 "l1" _ _ rfl
    [{ holderId := "h2", ttlSec := 60, now := 150, leaseId := "l2" },
     { holderId := "h3", ttlSec := 60, now := 9999, leaseId := "l3" }]
  exact h

/-- `Store.ClaimTask` rewrites the addressed row to its claimed version. -/
theorem getTask_storeClaimTask (db : DB) (taskId holderId : String) (now : Nat)
    (t : Task) (hf : getTask db taskId = some t) :
    getTask (storeClaimTask db taskId holderId now) taskId =
      some (markClaimed holderId now t) := by
  have hf1 : db.tasks.find? (fun x => x.id == taskId) = some t := hf
  unfold getTask storeClaimTask
  dsimp only
  rw [find_map_id _ _ (fun x => by cases h : (x.id == taskId) <;> simp [h]) taskId]
  rw [hf1]
  have hid : t.id = taskId := by simpa using List.find?_some hf1
  simp [hid, markClaimed]

/-- `Store.ReleaseTask` rewrites the addressed row to its pending version. -/
theorem getTask_storeReleaseTask (db : DB) (taskId : String) (now : Nat) :
    getTask (storeReleaseTask db taskId now) taskId =
      (getTask db taskId).map (fun t =>
        { t with status := .pending, claimedBy := none,
                 claimedAt := none, updatedAt := now }) := by
  unfold getTask storeReleaseTask
  dsimp only
  rw [find_map_id _ _ (fun x => by cases h : (x.id == taskId) <;> simp [h]) taskId]
  cases hf : db.tasks.find? (fun t => t.id == taskId) with
  | none => rfl
  | some t =>
    have hid : t.id = taskId := by simpa using List.find?_some hf
    simp [hid]

/-- C3 (counterexample): a task in the terminal status `completed` with no
lease row is re-claimed successfully by the control-plane claim verb, which
transitions it to `claimed` — refuting the claim that a claim attempt on a
terminal task always fails. -/
theorem terminal_reclaim_counterexample :
    (serviceClaimTask (sampleDB [sampleTask "t9" .completed] [] [])
        "t9" "h1" 300 100 "l1" "p1" "ih").1 =
      .ok { id := "l1", taskId := "t9", holderId := "h1", ttlSec := 300,
            expiresAt := 400, createdAt := 100 }
    ∧ getTask (serviceClaimTask (sampleDB [sampleTask "t9" .completed] [] [])
        "t9" "h1" 300 100 "l1" "p1" "ih").2 "t9" =
      some (markClaimed "h1" 100 (sampleTask "t9" .completed))
    ∧ (markClaimed "h1" 100 (sampleTask "t9" .completed)).status = .claimed := by
  refine ⟨rfl, rfl, rfl⟩

/-- C3 (amended, confirmed): a terminal (`completed` or `failed`) task can
never be claimed through `claim_task_with_lease`, which demands status
pending and fails with ErrTaskNotClaimable; the control-plane `claim_task`
verb, however, checks only for an active lease, so on a terminal task
without one it succeeds and moves the task to `claimed`. -/
theorem terminal_tasks_not_claimable (db : DB) (taskId holderId : String)
    (ttlSec now : Nat) (leaseId : String) (t : Task)
    (hf : getTask db taskId = some t)
    (hs : t.status = .completed ∨ t.status = .failed) :
    claimTaskWithLeaseTx db taskId holderId ttlSec now leaseId =
      (.error .taskNotClaimable, db)
    ∧ (getActiveLease db taskId now = none →
        ∀ pdrId inputsHash : String,
          ∃ lease db1,
            serviceClaimTask db taskId holderId ttlSec now leaseId pdrId inputsHash =
              (.ok lease, db1)
            ∧ getTask db1 taskId = some (markClaimed holderId now t)) := by
  constructor
  · refine claimTx_not_pending db taskId holderId ttlSec now leaseId t hf ?_
    rcases hs with h | h <;> simp [h]
  · intro hnl pdrId inputsHash
    have heq : serviceClaimTask db taskId holderId ttlSec now leaseId pdrId inputsHash =
        (Except.ok { id := leaseId, taskId := taskId, holderId := holderId,
                     ttlSec := ttlSec, expiresAt := now + ttlSec, createdAt := now },
         (writePDR (storeCreateLease (storeClaimTask db taskId holderId now)
            taskId holderId ttlSec now leaseId).2 pdrId "task.claim" inputsHash
            "success" taskId "" now).2) := by
      unfold serviceClaimTask
      rw [hnl]
      rfl
    refine ⟨_, _, heq, ?_⟩
    show getTask (storeClaimTask db taskId holderId now) taskId =
      some (markClaimed holderId now t)
    exact getTask_storeClaimTask db taskId holderId now t hf

/-- Witness for C3: concrete terminal task on which the transactional claim
fails and the control-plane verb succeeds. -/
theorem terminal_tasks_not_claimable_witness :
    (getTask (sampleDB [sampleTask "t9" .failed] [] []) "t9" =
      some (sampleTask "t9" .failed))
    ∧ ((sampleTask "t9" .failed).status = .completed ∨
       (sampleTask "t9" .failed).status = .failed)
    ∧ claimTaskWithLeaseTx (sampleDB [sampleTask "t9" .failed] [] [])
        "t9" "h1" 300 100 "l1" =
      (.error .taskNotClaimable, sampleDB [sampleTask "t9" .failed] [] [])
    ∧ (getActiveLease (sampleDB [sampleTask "t9" .failed] [] []) "t9" 100 = none →
        ∀ pdrId inputsHash : String,
          ∃ lease db1,
            serviceClaimTask (sampleDB [sampleTask "t9" .failed] [] [])
              "t9" "h1" 300 100 "l1" pdrId inputsHash = (.ok lease, db1)
            ∧ getTask db1 "t9" = some (markClaimed "h1" 100 (sampleTask "t9" .failed))) := by
  have h := terminal_tasks_not_claimable (sampleDB [sampleTask "t9" .failed] [] [])
    "t9" "h1" 300 100 "l1" (sampleTask "t9" .failed) rfl (Or.inr rfl)
  exact ⟨rfl, Or.inr rfl, h.1, h.2⟩

/-- C4 (counterexample): the control-plane `release_task` deletes the lease
before resetting the task to pending, so on its success path an observer
sees the task in status `claimed` with no lease row — refuting the claim
that every return-to-pending path resets the status first. -/
theorem release_order_counterexample :
    (serviceReleaseTask
        (sampleDB [sampleClaimedTask "t1" "h1"] [sampleLease "l1" "t1" "h1" 400] [])
        "t1" "h1" 100 "p1" "ih").1 = .ok ()
    ∧ ∃ s ∈ serviceReleaseTaskTrace
        (sampleDB [sampleClaimedTask "t1" "h1"] [sampleLease "l1" "t1" "h1" 400] [])
        "t1" "l1" 100,
        claimedNoLease s "t1" := by
  constructor
  · rfl
  · refine ⟨storeDeleteLease
      (sampleDB [sampleClaimedTask "t1" "h1"] [sampleLease "l1" "t1" "h1" 400] [])
      "l1", ?_, ?_⟩
    · simp [serviceReleaseTaskTrace]
    · decide

/-- C4 (amended, confirmed): on the scheduler worker-exit release path the
task status is reset to pending before the lease row is deleted, so no
state in that write sequence shows a task `claimed` with no lease; the
control-plane `release_task`, by contrast, deletes the lease first, so its
intermediate state can show exactly that. -/
theorem worker_release_order_safe (db : DB) (taskId leaseId : String) (now : Nat)
    (hl : ∃ l ∈ db.leases, l.taskId = taskId) :
    ∀ s ∈ runWorkerReleaseTrace db taskId leaseId now, ¬ claimedNoLease s taskId := by
  intro s hs
  have hmem : s = db ∨ s = storeReleaseTask db taskId now
      ∨ s = storeDeleteLease (storeReleaseTask db taskId now) leaseId := by
    simpa [runWorkerReleaseTrace] using hs
  have hrel : ∀ t', getTask (storeReleaseTask db taskId now) taskId = some t' →
      t'.status = .pending := by
    intro t' ht'
    rw [getTask_storeReleaseTask] at ht'
    cases hg : getTask db taskId with
    | none => rw [hg] at ht'; cases ht'
    | some t0 =>
      rw [hg] at ht'
      injection ht' with h0
      rw [← h0]
  rcases hmem with h | h | h
  · subst h
    rintro ⟨-, hnol⟩
    obtain ⟨l, hlmem, hltid⟩ := hl
    exact hnol l hlmem hltid
  · subst h
    rintro ⟨⟨t', ht', hcl⟩, -⟩
    rw [hrel t' ht'] at hcl
    cases hcl
  · subst h
    rintro ⟨⟨t', ht', hcl⟩, -⟩
    have ht'' : getTask (storeReleaseTask db taskId now) taskId = some t' := ht'
    rw [hrel t' ht''] at hcl
    cases hcl

/-- Witness for C4: the worker-exit trace of a concrete claimed task with a
live lease never shows (claimed, no lease). -/
theorem worker_release_order_safe_witness :
    (∃ l ∈ (sampleDB [sampleClaimedTask "t1" "h1"]
        [sampleLease "l1" "t1" "h1" 400] []).leases, l.taskId = "t1")
    ∧ ∀ s ∈ runWorkerReleaseTrace
        (sampleDB [sampleClaimedTask "t1" "h1"] [sampleLease "l1" "t1" "h1" 400] [])
        "t1" "l1" 100, ¬ claimedNoLease s "t1" := by
  refine ⟨⟨sampleLease "l1" "t1" "h1" 400, by decide, rfl⟩, ?_⟩
  exact worker_release_order_safe
    (sampleDB [sampleClaimedTask "t1" "h1"] [sampleLease "l1" "t1" "h1" 400] [])
    "t1" "l1" 100 ⟨sampleLease "l1" "t1" "h1" 400, by decide, rfl⟩

/-- Deleting a present key from a map with distinct keys removes exactly
one entry. -/
theorem filter_key_length (l : List (String × WorkerInfo)) (wid : String)
    (hn : (l.map Prod.fst).Nodup) (hm : l.any (fun p => p.1 == wid) = true) :
    (l.filter (fun p => !(p.1 == wid))).length + 1 = l.length := by
  induction l with
  | nil => cases hm
  | cons a l ih =>
    by_cases ha : a.1 = wid
    · have hnotin : ∀ x ∈ l, (!(x.1 == wid)) = true := by
        intro x hx
        have : a.1 ∉ l.map Prod.fst := (List.nodup_cons.mp hn).1
        have hxf : x.1 ∈ l.map Prod.fst := List.mem_map_of_mem Prod.fst hx
        by_cases hxw : x.1 = wid
        · exact absurd (by rw [ha, ← hxw]; exact hxf) this
        · simp [hxw]
      rw [List.filter_cons_of_neg (by simp [ha])]
      rw [List.filter_eq_self.mpr hnotin]
      simp
    · have hm' : l.any (fun p => p.1 == wid) = true := by
        rcases List.any_eq_true.mp hm with ⟨x, hx, hpx⟩
        rcases List.mem_cons.mp hx with h1 | h2
        · exact absurd (by simpa using hpx) (by rw [h1]; exact ha)
        · exact List.any_eq_true.mpr ⟨x, h2, hpx⟩
      rw [List.filter_cons_of_pos (by simp [ha])]
      simp only [List.length_cons]
      rw [← ih (List.nodup_cons.mp hn).2 hm']

/-- A configuration whose per-connector entries are all nonnegative gives
every connector a nonnegative limit (the fallback limit is 1). -/
theorem connectorLimit_nonneg (cfg : SchedConfig)
    (hbc : ∀ p ∈ cfg.byConnector, 0 ≤ p.2) (n : String) :
    0 ≤ cfg.getConnectorLimit n := by
  unfold SchedConfig.getConnectorLimit
  cases hf : cfg.byConnector.find? (fun p => p.1 == n) with
  | none => norm_num
  | some p => exact hbc p (List.mem_of_find?_eq_some hf)

/-- The inductive invariant of the scheduler bookkeeping. -/
def SchedInv (cfg : SchedConfig) (cname : String) (s : SchedState) : Prop :=
  s.activeWorkers = s.workers.length
  ∧ s.activeWorkers ≤ cfg.globalMax
  ∧ s.connectorCounts cname ≤ cfg.getConnectorLimit cname
  ∧ (∀ n, n ≠ cname → s.connectorCounts n = 0)
  ∧ s.connectorCounts cname = s.activeWorkers
  ∧ (s.workers.map Prod.fst).Nodup

/-- The invariant holds in every reachable scheduler state. -/
theorem schedInv_holds (cfg : SchedConfig) (cname : String)
    (hgm : 0 ≤ cfg.globalMax) (hbc : ∀ p ∈ cfg.byConnector, 0 ≤ p.2) :
    ∀ s, SchedReachable cfg cname s → SchedInv cfg cname s := by
  intro s h
  induction h with
  | init =>
    refine ⟨rfl, hgm, ?_, fun n _ => rfl, rfl, List.nodup_nil⟩
    exact connectorLimit_nonneg cfg hbc cname
  | @step s0 s1 hreach hstep ih =>
    obtain ⟨ih1, ih2, ih3, ih4, ih5, ih6⟩ := ih
    cases hstep with
    | dispatch wid w hg hc hfresh hwname hwid =>
      refine ⟨?_, ?_, ?_, ?_, ?_, ?_⟩
      · show s0.activeWorkers + 1 = ((s0.workers ++ [(wid, w)]).length : Int)
        rw [List.length_append, ih1]
        push_cast
        simp
      · show s0.activeWorkers + 1 ≤ cfg.globalMax
        omega
      · show Function.update s0.connectorCounts cname (s0.connectorCounts cname + 1) cname ≤
          cfg.getConnectorLimit cname
        rw [Function.update_same]
        omega
      · intro n hn
        show Function.update s0.connectorCounts cname (s0.connectorCounts cname + 1) n = 0
        rw [Function.update_noteq hn]
        exact ih4 n hn
      · show Function.update s0.connectorCounts cname (s0.connectorCounts cname + 1) cname =
          s0.activeWorkers + 1
        rw [Function.update_same, ih5]
      · show ((s0.workers ++ [(wid, w)]).map Prod.fst).Nodup
        rw [List.map_append]
        refine List.Nodup.append ih6 (by simp) ?_
        intro a ha hb
        have haw : a = wid := by simpa using hb
        rcases List.mem_map.mp ha with ⟨p, hp, hpa⟩
        have hall := List.all_eq_true.mp hfresh p hp
        rw [hpa, haw] at hall
        simp at hall
    | exit wid hmem =>
      have hlen := filter_key_length s0.workers wid ih6 hmem
      refine ⟨?_, ?_, ?_, ?_, ?_, ?_⟩
      · show s0.activeWorkers - 1 =
          ((s0.workers.filter (fun p => !(p.1 == wid))).length : Int)
        omega
      · show s0.activeWorkers - 1 ≤ cfg.globalMax
        omega
      · show Function.update s0.connectorCounts cname (s0.connectorCounts cname - 1) cname ≤
          cfg.getConnectorLimit cname
        rw [Function.update_same]
        omega
      · intro n hn
        show Function.update s0.connectorCounts cname (s0.connectorCounts cname - 1) n = 0
        rw [Function.update_noteq hn]
        exact ih4 n hn
      · show Function.update s0.connectorCounts cname (s0.connectorCounts cname - 1) cname =
          s0.activeWorkers - 1
        rw [Function.update_same, ih5]
      · show ((s0.workers.filter (fun p => !(p.1 == wid))).map Prod.fst).Nodup
        exact ih6.sublist (List.Sublist.map Prod.fst (List.filter_sublist s0.workers))

/-- C5 (confirmed): in every reachable scheduler state `active_workers`
equals the number of `WorkerInfo` entries and never exceeds `global_max`,
every connector count stays within its per-connector limit, and every
worker exit decrements both counters by one and removes exactly that
worker's `WorkerInfo`. Config limits are assumed nonnegative. -/
theorem scheduler_capacity_invariant (cfg : SchedConfig) (cname : String)
    (hgm : 0 ≤ cfg.globalMax) (hbc : ∀ p ∈ cfg.byConnector, 0 ≤ p.2) :
    (∀ s, SchedReachable cfg cname s →
      s.activeWorkers = s.workers.length
      ∧ s.activeWorkers ≤ cfg.globalMax
      ∧ ∀ n, s.connectorCounts n ≤ cfg.getConnectorLimit n)
    ∧ (∀ s wid, SchedReachable cfg cname s →
        s.workers.any (fun p => p.1 == wid) = true →
        (exitState s cname wid).activeWorkers + 1 = s.activeWorkers
        ∧ (exitState s cname wid).connectorCounts cname + 1 = s.connectorCounts cname
        ∧ (exitState s cname wid).workers.length + 1 = s.workers.length
        ∧ (exitState s cname wid).workers.all (fun p => !(p.1 == wid)) = true) := by
  constructor
  · intro s hs
    obtain ⟨i1, i2, i3, i4, i5, i6⟩ := schedInv_holds cfg cname hgm hbc s hs
    refine ⟨i1, i2, ?_⟩
    intro n
    by_cases hn : n = cname
    · rw [hn]; exact i3
    · rw [i4 n hn]; exact connectorLimit_nonneg cfg hbc n
  · intro s wid hs hmem
    obtain ⟨i1, i2, i3, i4, i5, i6⟩ := schedInv_holds cfg cname hgm hbc s hs
    refine ⟨by simp [exitState], ?_, ?_, ?_⟩
    · show Function.update s.connectorCounts cname (s.connectorCounts cname - 1) cname + 1 =
        s.connectorCounts cname
      rw [Function.update_same]
      ring
    · exact filter_key_length s.workers wid i6 hmem
    · rw [List.all_eq_true]
      intro p hp
      have := List.of_mem_filter hp
      simpa using this

/-- Witness for C5: the default configuration has nonnegative limits, and
the initial state together with a dispatch-then-exit run satisfies the
stated bounds via the theorem. -/
theorem scheduler_capacity_invariant_witness :
    (0 ≤ defaultSchedConfig.globalMax)
    ∧ (∀ p ∈ defaultSchedConfig.byConnector, 0 ≤ p.2)
    ∧ (SchedState.init.activeWorkers = SchedState.init.workers.length
       ∧ SchedState.init.activeWorkers ≤ defaultSchedConfig.globalMax
       ∧ ∀ n, SchedState.init.connectorCounts n ≤
           defaultSchedConfig.getConnectorLimit n) := by
  refine ⟨by norm_num [defaultSchedConfig], ?_, ?_⟩
  · intro p hp
    rcases List.mem_singleton.mp hp with h
    rw [h]
    norm_num
  · exact (scheduler_capacity_invariant defaultSchedConfig "localexec"
      (by norm_num [defaultSchedConfig])
      (by intro p hp; rcases List.mem_singleton.mp hp with h; rw [h]; norm_num)).1
      SchedState.init SchedReachable.init

/-- On any error, `AcquireLock` returns the caller's database unchanged
(the transaction rolls back). -/
theorem acquireLock_error_rollback (db : DB) (resourceId holderId lockType : String)
    (ttlSec now : Nat) (lockId : String) (e : LockErr) (db1 : DB) :
    acquireLock db resourceId holderId lockType ttlSec now lockId = (.error e, db1) →
    db1 = db := by
  unfold acquireLock
  split
  · intro hEq; exact (congrArg Prod.snd hEq).symm
  · split
    · intro hEq; exact (congrArg Prod.snd hEq).symm
    · intro hEq; exact absurd (congrArg Prod.fst hEq) (by simp)

/-- The lock table rows other than the `pdrs` field are the only thing
`AcquireLock` can change: its result database always carries the caller's
audit, task, lease, run and memory tables. -/
theorem acquireLock_snd_frame (db : DB) (resourceId holderId lockType : String)
    (ttlSec now : Nat) (lockId : String) :
    (acquireLock db resourceId holderId lockType ttlSec now lockId).2.pdrs = db.pdrs
    ∧ (acquireLock db resourceId holderId lockType ttlSec now lockId).2.tasks = db.tasks
    ∧ (acquireLock db resourceId holderId lockType ttlSec now lockId).2.leases = db.leases := by
  unfold acquireLock
  split
  · exact ⟨rfl, rfl, rfl⟩
  · split
    · exact ⟨rfl, rfl, rfl⟩
    · exact ⟨rfl, rfl, rfl⟩

/-- C6 (confirmed): `acquire_lock` in one transaction deletes the expired
rows of the resource, fails with ErrResourceLocked when an unexpired row
remains (a same-resource row at insert time likewise maps to
ErrResourceLocked), and otherwise inserts a lock expiring at `now + ttl`;
hence once every lock of a resource has expired, any holder's acquisition
succeeds. -/
theorem acquireLock_spec (db : DB) (resourceId holderId lockType : String)
    (ttlSec now : Nat) (lockId : String) :
    ((∃ l ∈ db.locks, l.resourceId = resourceId ∧ now < l.expiresAt) →
      acquireLock db resourceId holderId lockType ttlSec now lockId =
        (.error .resourceLocked, db))
    ∧ (((db.locks.filter (fun l =>
          !(l.resourceId == resourceId && l.expiresAt ≤ now))).any
            (fun l => l.resourceId == resourceId) = true) →
      (acquireLock db resourceId holderId lockType ttlSec now lockId).1 =
        .error .resourceLocked)
    ∧ ((∀ l ∈ db.locks, l.resourceId = resourceId → l.expiresAt ≤ now) →
      ∃ lock db1,
        acquireLock db resourceId holderId lockType ttlSec now lockId = (.ok lock, db1)
        ∧ lock.resourceId = resourceId ∧ lock.holderId = holderId
        ∧ lock.expiresAt = now + ttlSec
        ∧ db1.locks = db.locks.filter (fun l =>
            !(l.resourceId == resourceId && l.expiresAt ≤ now)) ++ [lock]) := by
  refine ⟨?_, ?_, ?_⟩
  · rintro ⟨l, hmem, hres, hact⟩
    have hmem1 : l ∈ db.locks.filter (fun l =>
        !(l.resourceId == resourceId && l.expiresAt ≤ now)) := by
      refine List.mem_filter.mpr ⟨hmem, ?_⟩
      simp [hres]
      omega
    have hany : (db.locks.filter (fun l =>
        !(l.resourceId == resourceId && l.expiresAt ≤ now))).any
          (fun l => l.resourceId == resourceId && now < l.expiresAt) = true :=
      List.any_eq_true.mpr ⟨l, hmem1, by simp [hres, hact]⟩
    unfold acquireLock
    rw [if_pos hany]
  · intro hany2
    rcases List.any_eq_true.mp hany2 with ⟨l, hl, hpl⟩
    have hres : l.resourceId = resourceId := by simpa using hpl
    have hnotexp : ¬(l.expiresAt ≤ now) := by
      have := (List.mem_filter.mp hl).2
      simp [hres] at this
      omega
    have hany1 : (db.locks.filter (fun l =>
        !(l.resourceId == resourceId && l.expiresAt ≤ now))).any
          (fun l => l.resourceId == resourceId && now < l.expiresAt) = true :=
      List.any_eq_true.mpr ⟨l, hl, by simp [hres]; omega⟩
    unfold acquireLock
    rw [if_pos hany1]
  · intro hall
    have h2 : (db.locks.filter (fun l =>
        !(l.resourceId == resourceId && l.expiresAt ≤ now))).any
          (fun l => l.resourceId == resourceId) = false := by
      rw [List.any_eq_false]
      intro l hl
      obtain ⟨hmem, hpred⟩ := List.mem_filter.mp hl
      by_cases hres : l.resourceId = resourceId
      · have hexp := hall l hmem hres
        simp [hres, hexp] at hpred
      · simp [hres]
    have h1 : (db.locks.filter (fun l =>
        !(l.resourceId == resourceId && l.expiresAt ≤ now))).any
          (fun l => l.resourceId == resourceId && now < l.expiresAt) = false := by
      rw [List.any_eq_false]
      intro l hl
      have := List.any_eq_false.mp h2 l hl
      simp at this
      simp [this]
    have heq : acquireLock db resourceId holderId lockType ttlSec now lockId =
        (.ok { id := lockId, resourceId := resourceId, holderId := holderId,
               lockType := lockType, createdAt := now, expiresAt := now + ttlSec },
         { db with locks := db.locks.filter (fun l =>
             !(l.resourceId == resourceId && l.expiresAt ≤ now)) ++
             [{ id := lockId, resourceId := resourceId, holderId := holderId,
                lockType := lockType, createdAt := now, expiresAt := now + ttlSec }] }) := by
      unfold acquireLock
      rw [if_neg (by rw [h1]; exact Bool.false_ne_true),
          if_neg (by rw [h2]; exact Bool.false_ne_true)]
    exact ⟨_, _, heq, rfl, rfl, rfl, rfl⟩

/-- Witness for C6: a held lock rejects a second holder, and the same lock
once expired is acquired by a different holder with the stated expiry. -/
theorem acquireLock_spec_witness :
    (∃ l ∈ (sampleDB [] [] [sampleLock "k1" "res-X" "h1" 300]).locks,
      l.resourceId = "res-X" ∧ 100 < l.expiresAt)
    ∧ acquireLock (sampleDB [] [] [sampleLock "k1" "res-X" "h1" 300])
        "res-X" "h2" "exclusive" 300 100 "k2" =
      (.error .resourceLocked, sampleDB [] [] [sampleLock "k1" "res-X" "h1" 300])
    ∧ (∀ l ∈ (sampleDB [] [] [sampleLock "k1" "res-X" "h1" 300]).locks,
        l.resourceId = "res-X" → l.expiresAt ≤ 500)
    ∧ (∃ lock db1,
        acquireLock (sampleDB [] [] [sampleLock "k1" "res-X" "h1" 300])
          "res-X" "h2" "exclusive" 300 500 "k2" = (.ok lock, db1)
        ∧ lock.resourceId = "res-X" ∧ lock.holderId = "h2"
        ∧ lock.expiresAt = 500 + 300
        ∧ db1.locks = ((sampleDB [] [] [sampleLock "k1" "res-X" "h1" 300]).locks.filter
            (fun l => !(l.resourceId == "res-X" && l.expiresAt ≤ 500))) ++ [lock]) := by
  refine ⟨⟨sampleLock "k1" "res-X" "h1" 300, by decide, by decide⟩, ?_, by decide, ?_⟩
  · exact (acquireLock_spec (sampleDB [] [] [sampleLock "k1" "res-X" "h1" 300])
      "res-X" "h2" "exclusive" 300 100 "k2").1
      ⟨sampleLock "k1" "res-X" "h1" 300, by decide, by decide⟩
  · exact (acquireLock_spec (sampleDB [] [] [sampleLock "k1" "res-X" "h1" 300])
      "res-X" "h2" "exclusive" 300 500 "k2").2.2 (by decide)

/-- C7 (confirmed): `release_task` returns ErrNoLease with no active lease
and ErrNotOwner when the lease holder differs from the caller; `run_task`
returns ErrNotOwner in both situations; in every such error case the
database (tasks, leases, locks, runs, audit, memory) is returned
unchanged. -/
theorem owner_verification (db : DB) (taskId holderId command : String)
    (args : List String) (execResult : Except String ExecResult) (now : Nat)
    (pdrId inputsHash runId memId : String) :
    (getActiveLease db taskId now = none →
      serviceReleaseTask db taskId holderId now pdrId inputsHash = (.error .noLease, db))
    ∧ (∀ l, getActiveLease db taskId now = some l → l.holderId ≠ holderId →
      serviceReleaseTask db taskId holderId now pdrId inputsHash = (.error .notOwner, db))
    ∧ (getActiveLease db taskId now = none →
      serviceRunTask db taskId holderId command args execResult now runId pdrId memId inputsHash =
        (.error .notOwner, db))
    ∧ (∀ l, getActiveLease db taskId now = some l → l.holderId ≠ holderId →
      serviceRunTask db taskId holderId command args execResult now runId pdrId memId inputsHash =
        (.error .notOwner, db)) := by
  refine ⟨?_, ?_, ?_, ?_⟩
  · intro h
    unfold serviceReleaseTask
    rw [h]
  · intro l h hne
    unfold serviceReleaseTask
    rw [h]
    dsimp only
    rw [if_pos hne]
  · intro h
    unfold serviceRunTask
    rw [h]
  · intro l h hne
    unfold serviceRunTask
    rw [h]
    dsimp only
    rw [if_pos hne]

/-- Witness for C7: a task claimed by `h1` with a live lease rejects a
release and a run by `h2`, and a leaseless task rejects both verbs, each
time leaving the concrete database unchanged. -/
theorem owner_verification_witness :
    (∀ l, getActiveLease
        (sampleDB [sampleClaimedTask "t1" "h1"] [sampleLease "l1" "t1" "h1" 400] [])
        "t1" 100 = some l → l.holderId ≠ "h2")
    ∧ serviceReleaseTask
        (sampleDB [sampleClaimedTask "t1" "h1"] [sampleLease "l1" "t1" "h1" 400] [])
        "t1" "h2" 100 "p1" "ih" =
      (.error .notOwner,
       sampleDB [sampleClaimedTask "t1" "h1"] [sampleLease "l1" "t1" "h1" 400] [])
    ∧ getActiveLease (sampleDB [sampleTask "t2" .pending] [] []) "t2" 100 = none
    ∧ serviceReleaseTask (sampleDB [sampleTask "t2" .pending] [] [])
        "t2" "h2" 100 "p1" "ih" =
      (.error .noLease, sampleDB [sampleTask "t2" .pending] [] [])
    ∧ serviceRunTask
        (sampleDB [sampleClaimedTask "t1" "h1"] [sampleLease "l1" "t1" "h1" 400] [])
        "t1" "h2" "go" ["test"] (.ok { command := "go", args := ["test"],
                                       exitCode := 0, stdout := "", stderr := "" })
        100 "r1" "p1" "m1" "ih" =
      (.error .notOwner,
       sampleDB [sampleClaimedTask "t1" "h1"] [sampleLease "l1" "t1" "h1" 400] []) := by
  have hsome : getActiveLease
      (sampleDB [sampleClaimedTask "t1" "h1"] [sampleLease "l1" "t1" "h1" 400] [])
      "t1" 100 = some (sampleLease "l1" "t1" "h1" 400) := rfl
  refine ⟨?_, ?_, rfl, ?_, ?_⟩
  · intro l hl
    rw [hsome] at hl
    injection hl with h0
    rw [← h0]
    decide
  · exact (owner_verification
      (sampleDB [sampleClaimedTask "t1" "h1"] [sampleLease "l1" "t1" "h1" 400] [])
      "t1" "h2" "go" ["test"] (.error "unused") 100 "p1" "ih" "r1" "m1").2.1
      (sampleLease "l1" "t1" "h1" 400) hsome (by decide)
  · exact (owner_verification (sampleDB [sampleTask "t2" .pending] [] [])
      "t2" "h2" "go" ["test"] (.error "unused") 100 "p1" "ih" "r1" "m1").1 rfl
  · exact (owner_verification
      (sampleDB [sampleClaimedTask "t1" "h1"] [sampleLease "l1" "t1" "h1" 400] [])
      "t1" "h2" "go" ["test"]
      (.ok { command := "go", args := ["test"], exitCode := 0, stdout := "", stderr := "" })
      100 "p1" "ih" "r1" "m1").2.2.2
      (sampleLease "l1" "t1" "h1" 400) hsome (by decide)

/-- C8 (counterexample): a control-plane claim attempt that fails with
ErrAlreadyClaimed, and a lock acquisition that fails with
ErrResourceLocked, write no audit record at all — the audit table stays
empty — refuting the claim that failed state-changing attempts are audited
with outcome `failed`. -/
theorem audit_on_failure_counterexample :
    serviceClaimTask
      (sampleDB [sampleClaimedTask "t1" "h1"] [sampleLease "l1" "t1" "h1" 400] [])
      "t1" "h2" 300 100 "l2" "p1" "ih" =
      (.error .alreadyClaimed,
       sampleDB [sampleClaimedTask "t1" "h1"] [sampleLease "l1" "t1" "h1" 400] [])
    ∧ (sampleDB [sampleClaimedTask "t1" "h1"] [sampleLease "l1" "t1" "h1" 400] []).pdrs = []
    ∧ serviceAcquireLock (sampleDB [] [] [sampleLock "k1" "res-X" "h1" 300])
        "res-X" "h2" "task" 300 100 "k2" "p1" "ih" =
      (.error .resourceLocked, sampleDB [] [] [sampleLock "k1" "res-X" "h1" 300]) := by
  refine ⟨rfl, rfl, rfl⟩

/-- C8 (amended, confirmed): the control-plane claim and lock verbs write
exactly one audit record with outcome `success` when they succeed, and no
audit record at all when they fail — failures are not audited. -/
theorem audit_success_only (db : DB) (taskId holderId resourceId lockType : String)
    (ttlSec now : Nat) (leaseId lockId pdrId inputsHash : String) :
    (∀ e db1, serviceClaimTask db taskId holderId ttlSec now leaseId pdrId inputsHash =
        (.error e, db1) → db1.pdrs = db.pdrs)
    ∧ (∀ lease db1, serviceClaimTask db taskId holderId ttlSec now leaseId pdrId inputsHash =
        (.ok lease, db1) →
        ∃ entry, db1.pdrs = db.pdrs ++ [entry] ∧ entry.outcome = "success")
    ∧ (∀ e db1, serviceAcquireLock db resourceId holderId lockType ttlSec now lockId pdrId inputsHash =
        (.error e, db1) → db1.pdrs = db.pdrs)
    ∧ (∀ lock db1, serviceAcquireLock db resourceId holderId lockType ttlSec now lockId pdrId inputsHash =
        (.ok lock, db1) →
        ∃ entry, db1.pdrs = db.pdrs ++ [entry] ∧ entry.outcome = "success") := by
  refine ⟨?_, ?_, ?_, ?_⟩
  · intro e db1 h
    unfold serviceClaimTask at h
    cases hga : getActiveLease db taskId now with
    | some l =>
      rw [hga] at h
      have h2 : db = db1 := congrArg Prod.snd h
      rw [← h2]
    | none =>
      rw [hga] at h
      have h1 : (Except.ok (storeCreateLease (storeClaimTask db taskId holderId now)
          taskId holderId ttlSec now leaseId).1 : Except CPErr Lease) = .error e :=
        congrArg Prod.fst h
      exact absurd h1 (by simp)
  · intro lease db1 h
    unfold serviceClaimTask at h
    cases hga : getActiveLease db taskId now with
    | some l =>
      rw [hga] at h
      have h1 : (Except.error .alreadyClaimed : Except CPErr Lease) = .ok lease :=
        congrArg Prod.fst h
      exact absurd h1 (by simp)
    | none =>
      rw [hga] at h
      have h2 : db1 = (writePDR (storeCreateLease (storeClaimTask db taskId holderId now)
          taskId holderId ttlSec now leaseId).2 pdrId "task.claim" inputsHash
          "success" taskId "" now).2 := (congrArg Prod.snd h).symm
      refine ⟨{ id := pdrId, action := "task.claim", inputsHash := inputsHash,
                outcome := "success", taskId := taskId, details := "",
                timestamp := now }, ?_, rfl⟩
      rw [h2]
      rfl
  · intro e db1 h
    unfold serviceAcquireLock at h
    cases hal : acquireLock db resourceId holderId lockType ttlSec now lockId with
    | mk res dbA =>
      rw [hal] at h
      cases res with
      | error e2 =>
        have hdb : dbA = db :=
          acquireLock_error_rollback db resourceId holderId lockType ttlSec now lockId e2 dbA hal
        have h2 : dbA = db1 := congrArg Prod.snd h
        rw [← h2, hdb]
      | ok lock =>
        have h1 : (Except.ok lock : Except LockErr Lock) = .error e := congrArg Prod.fst h
        exact absurd h1 (by simp)
  · intro lock db1 h
    unfold serviceAcquireLock at h
    cases hal : acquireLock db resourceId holderId lockType ttlSec now lockId with
    | mk res dbA =>
      rw [hal] at h
      cases res with
      | error e2 =>
        have h1 : (Except.error e2 : Except LockErr Lock) = .ok lock := congrArg Prod.fst h
        exact absurd h1 (by simp)
      | ok lock2 =>
        have hframe := (acquireLock_snd_frame db resourceId holderId lockType ttlSec now lockId).1
        rw [hal] at hframe
        have h2 : db1 = (writePDR dbA pdrId "lock.acquire" inputsHash
            "success" "" "" now).2 := (congrArg Prod.snd h).symm
        refine ⟨{ id := pdrId, action := "lock.acquire", inputsHash := inputsHash,
                  outcome := "success", taskId := "", details := "",
                  timestamp := now }, ?_, rfl⟩
        rw [h2]
        show dbA.pdrs ++ _ = db.pdrs ++ _
        rw [hframe]

/-- Witness for C8 (amended): a successful claim appends exactly one
success audit record, and a failed lock acquisition leaves the audit table
untouched, on concrete databases. -/
theorem audit_success_only_witness :
    (∃ lease db1,
      serviceClaimTask (sampleDB [sampleTask "t1" .pending] [] [])
        "t1" "h1" 300 100 "l1" "p1" "ih" = (.ok lease, db1)
      ∧ ∃ entry, db1.pdrs = (sampleDB [sampleTask "t1" .pending] [] []).pdrs ++ [entry]
          ∧ entry.outcome = "success")
    ∧ (∃ e db1,
      serviceAcquireLock (sampleDB [] [] [sampleLock "k1" "res-X" "h1" 300])
        "res-X" "h2" "task" 300 100 "k2" "p1" "ih" = (.error e, db1)
      ∧ db1.pdrs = (sampleDB [] [] [sampleLock "k1" "res-X" "h1" 300]).pdrs) := by
  constructor
  · refine ⟨_, _, rfl, ?_⟩
    exact (audit_success_only (sampleDB [sampleTask "t1" .pending] [] [])
      "t1" "h1" "res-X" "task" 300 100 "l1" "k2" "p1" "ih").2.1 _ _ rfl
  · refine ⟨_, _, rfl, ?_⟩
    exact (audit_success_only (sampleDB [] [] [sampleLock "k1" "res-X" "h1" 300])
      "t1" "h2" "res-X" "task" 300 100 "l1" "k2" "p1" "ih").2.2.1 _ _ rfl

/-- An empty argument list is never allowed. -/
theorem isAllowed_nil (cmd : String) : isAllowed cmd [] = false := by
  unfold isAllowed
  cases hf : allowedCommands.find? (fun p => p.1 == cmd) with
  | none => rfl
  | some p => rfl

/-- C9 (confirmed): `is_allowed` accepts exactly `go test …` and
`git diff …` / `git status …` (judged by the first argument), rejecting
everything else including empty argument lists; `execute` returns the
not-allowed error — spawning nothing — whenever `is_allowed` rejects. -/
theorem connector_allowlist_safety (cmd : String) (args : List String) :
    (isAllowed cmd args = true ↔
      (cmd = "go" ∧ args.head? = some "test")
      ∨ (cmd = "git" ∧ (args.head? = some "diff" ∨ args.head? = some "status")))
    ∧ (isAllowed cmd args = false →
        localExecExecute cmd args = .error .errNotAllowed)
    ∧ localExecExecute cmd [] = .error .errNotAllowed := by
  refine ⟨?_, ?_, ?_⟩
  · unfold isAllowed allowedCommands
    by_cases hgo : cmd = "go"
    · subst hgo
      cases args with
      | nil => simp
      | cons a as =>
        simp
        exact eq_comm
    · by_cases hgit : cmd = "git"
      · subst hgit
        cases args with
        | nil => simp
        | cons a as =>
          simp
          exact ⟨fun h => h.imp Eq.symm Eq.symm, fun h => h.imp Eq.symm Eq.symm⟩
      · have h1 : (("go" : String) == cmd) = false := beq_eq_false_iff_ne.mpr (Ne.symm hgo)
        have h2 : (("git" : String) == cmd) = false := beq_eq_false_iff_ne.mpr (Ne.symm hgit)
        simp [List.find?, h1, h2, hgo, hgit]
  · intro h
    unfold localExecExecute
    rw [if_neg (by rw [h]; exact Bool.false_ne_true)]
  · unfold localExecExecute
    rw [if_neg (by rw [isAllowed_nil cmd]; exact Bool.false_ne_true)]

/-- Witness for C9: `rm -rf /` is rejected without a spawn, `go [] ` is
rejected, and `git status` is accepted. -/
theorem connector_allowlist_safety_witness :
    isAllowed "rm" ["-rf", "/"] = false
    ∧ localExecExecute "rm" ["-rf", "/"] = .error .errNotAllowed
    ∧ localExecExecute "go" [] = .error .errNotAllowed
    ∧ isAllowed "git" ["status"] = true := by
  refine ⟨by decide, ?_, ?_, by decide⟩
  · exact (connector_allowlist_safety "rm" ["-rf", "/"]).2.1 (by decide)
  · exact (connector_allowlist_safety "go" []).2.2

/-- `UpdateTaskStatus` rewrites the addressed row's status and
`updated_at` only. -/
theorem getTask_updateTaskStatus (db : DB) (id : String) (status : TaskStatus)
    (now : Nat) (t : Task) (hf : getTask db id = some t) :
    getTask (updateTaskStatus db id status now) id =
      some { t with status := status, updatedAt := now } := by
  have hf1 : db.tasks.find? (fun x => x.id == id) = some t := hf
  unfold getTask updateTaskStatus
  dsimp only
  rw [find_map_id _ _ (fun x => by cases h : (x.id == id) <;> simp [h]) id]
  rw [hf1]
  have hid : t.id = id := by simpa using List.find?_some hf1
  simp [hid]

/-- C10 (confirmed): `update_task_status` changes only the addressed row's
`status` and `updated_at` — every row keeps its `claimed_by`, `claimed_at`,
`title`, `description` and `created_at`, rows with another id are untouched,
and the other tables are untouched; consequently a claimed task driven to
`completed` still carries `claimed_by = holder` in the terminal state. -/
theorem updateTaskStatus_frame (db : DB) (id : String) (status : TaskStatus)
    (now : Nat) :
    ((updateTaskStatus db id status now).tasks.length = db.tasks.length
     ∧ (updateTaskStatus db id status now).leases = db.leases
     ∧ (updateTaskStatus db id status now).locks = db.locks
     ∧ (updateTaskStatus db id status now).runs = db.runs
     ∧ (updateTaskStatus db id status now).pdrs = db.pdrs
     ∧ (updateTaskStatus db id status now).memories = db.memories)
    ∧ (∀ i (h1 : i < db.tasks.length)
         (h2 : i < (updateTaskStatus db id status now).tasks.length),
        ((updateTaskStatus db id status now).tasks.get ⟨i, h2⟩).id =
            (db.tasks.get ⟨i, h1⟩).id
        ∧ ((updateTaskStatus db id status now).tasks.get ⟨i, h2⟩).title =
            (db.tasks.get ⟨i, h1⟩).title
        ∧ ((updateTaskStatus db id status now).tasks.get ⟨i, h2⟩).description =
            (db.tasks.get ⟨i, h1⟩).description
        ∧ ((updateTaskStatus db id status now).tasks.get ⟨i, h2⟩).claimedBy =
            (db.tasks.get ⟨i, h1⟩).claimedBy
        ∧ ((updateTaskStatus db id status now).tasks.get ⟨i, h2⟩).claimedAt =
            (db.tasks.get ⟨i, h1⟩).claimedAt
        ∧ ((updateTaskStatus db id status now).tasks.get ⟨i, h2⟩).createdAt =
            (db.tasks.get ⟨i, h1⟩).createdAt
        ∧ ((db.tasks.get ⟨i, h1⟩).id ≠ id →
            (updateTaskStatus db id status now).tasks.get ⟨i, h2⟩ =
              db.tasks.get ⟨i, h1⟩))
    ∧ (∀ holderId : String, ∀ ttlSec now0 : Nat, ∀ leaseId : String,
        ∀ res : ClaimResult, ∀ db1 : DB,
        claimTaskWithLeaseTx db id holderId ttlSec now0 leaseId = (.ok res, db1) →
        ∃ t1, getTask (updateTaskStatus db1 id .completed now) id = some t1
          ∧ t1.status = .completed ∧ t1.claimedBy = some holderId) := by
  refine ⟨⟨by simp [updateTaskStatus], rfl, rfl, rfl, rfl, rfl⟩, ?_, ?_⟩
  · intro i h1 h2
    have hget : (updateTaskStatus db id status now).tasks.get ⟨i, h2⟩ =
        (fun t => if t.id == id then { t with status := status, updatedAt := now }
                  else t) (db.tasks.get ⟨i, h1⟩) := by
      simp [updateTaskStatus, List.get_eq_getElem]
    rw [hget]
    dsimp only
    by_cases hcond : ((db.tasks.get ⟨i, h1⟩).id == id) = true
    · rw [if_pos hcond]
      refine ⟨rfl, rfl, rfl, rfl, rfl, rfl, ?_⟩
      intro hne
      exact absurd (by simpa using hcond) hne
    · rw [if_neg hcond]
      exact ⟨rfl, rfl, rfl, rfl, rfl, rfl, fun h => rfl⟩
  · intro holderId ttlSec now0 leaseId res db1 hok
    obtain ⟨t, -, -, -, hget⟩ :=
      claimTx_ok_inv db id holderId ttlSec now0 leaseId res db1 hok
    refine ⟨{ markClaimed holderId now0 t with status := .completed, updatedAt := now },
      ?_, rfl, rfl⟩
    exact getTask_updateTaskStatus db1 id .completed now (markClaimed holderId now0 t) hget

/-- Witness for C10: a concrete claim followed by
`update_task_status(completed)` leaves `claimed_by` set to the worker. -/
theorem updateTaskStatus_frame_witness :
    (∃ res db1,
      claimTaskWithLeaseTx (sampleDB [sampleTask "t1" .pending] [] [])
        "t1" "w1" 300 100 "l1" = (.ok res, db1))
    ∧ (∃ t1, getTask (updateTaskStatus
        (claimTaskWithLeaseTx (sampleDB [sampleTask "t1" .pending] [] [])
          "t1" "w1" 300 100 "l1").2 "t1" .completed 105) "t1" = some t1
        ∧ t1.status = .completed ∧ t1.claimedBy = some "w1") := by
  refine ⟨⟨_, _, rfl⟩, ?_⟩
  exact (updateTaskStatus_frame (sampleDB [sampleTask "t1" .pending] [] [])
    "t1" .completed 105).2.2 "w1" 300 100 "l1" _ _ rfl

end Neona
